import Mathlib

/-!
Shallow embedding of `urbansim_defaults/utils.py` (the orchestration
utilities of the BayAreaMetro `urbansim_defaults` repository) and proofs
about the claims of its specification.

Tables are modelled as Lean lists of records; the orca table store is a
record holding the named tables the embedded functions touch.  Machine
integers of the source (pandas int64 ids and counts) are modelled as `Int`.
-/

/-- A row of the buildings table: its id (the pandas index) and its
`parcel_id` column.  Other columns play no role in the claims about
`_remove_developed_buildings`. -/
structure Building where
  bid : Int
  parcel_id : Int
  deriving Repr, DecidableEq

/-- A row of an agent table (households or jobs): its id and its
`building_id` location column (`-1` means unplaced). -/
structure Agent where
  aid : Int
  building_id : Int
  deriving Repr, DecidableEq

/-- The slice of the orca table store touched by
`_remove_developed_buildings`: the optional `dropped_buildings` table and
the named agent tables. -/
structure Store where
  dropped_buildings : Option (List Building)
  agentTables : List (String × List Agent)
  deriving Repr, DecidableEq

/-- `old_buildings[redev_buildings]` with
`redev_buildings = old_buildings.parcel_id.isin(new_buildings.parcel_id)`:
the buildings dropped because their parcel is being redeveloped. -/
def dropBuildings (old_buildings new_buildings : List Building) : List Building :=
  old_buildings.filter
    (fun b => new_buildings.any (fun nb => nb.parcel_id == b.parcel_id))

/-- `old_buildings[np.logical_not(redev_buildings)]`: the survivors. -/
def keepBuildings (old_buildings new_buildings : List Building) : List Building :=
  old_buildings.filter
    (fun b => !(new_buildings.any (fun nb => nb.parcel_id == b.parcel_id)))

/-- `agents.building_id[agents.building_id.isin(drop_buildings.index)] = -1`:
unplace every agent that referenced a dropped building. -/
def unplaceDisplaced (drops : List Building) (agents : List Agent) : List Agent :=
  agents.map (fun a =>
    if drops.any (fun d => d.bid == a.building_id) then
      { a with building_id := -1 }
    else a)

/-- The `dropped_buildings` bookkeeping of `_remove_developed_buildings`:
if the table exists, the new drops are concatenated in front of the
previous ones (`pd.concat([drop_buildings, prev_drops])`); otherwise the
table is created holding exactly the new drops. -/
def recordDropped (drops : List Building) (st : Store) : Store :=
  match st.dropped_buildings with
  | some prev => { st with dropped_buildings := some (drops ++ prev) }
  | none => { st with dropped_buildings := some drops }

/-- `_remove_developed_buildings(old_buildings, new_buildings,
unplace_agents)`: records the dropped buildings, unplaces displaced agents
in every table named in `unplace_agents`, and returns the surviving old
buildings together with the updated store. -/
def removeDevelopedBuildings (old_buildings new_buildings : List Building)
    (unplace_agents : List String) (st : Store) : List Building × Store :=
  let drops := dropBuildings old_buildings new_buildings
  let st1 := recordDropped drops st
  let st2 := { st1 with
    agentTables := st1.agentTables.map (fun p =>
      if unplace_agents.contains p.1 then (p.1, unplaceDisplaced drops p.2)
      else p) }
  (keepBuildings old_buildings new_buildings, st2)

/-- The rows recorded in the `dropped_buildings` table (empty when the
table does not exist yet). -/
def recordedDrops (st : Store) : List Building :=
  st.dropped_buildings.getD []

/-! Candidate-unit expansion and mover truncation of `lcm_simulate`.  The
vacant-units series `vacant_units = buildings[vacant_fname]` is modelled
as a list of (building id, vacant count) pairs. -/

/-- `vacant_units = vacant_units[vacant_units > 0]` followed by
`np.repeat(vacant_units.index.values, vacant_units.values.astype('int'))`:
one candidate-unit entry (the building id) per unit of strictly positive
vacant capacity. -/
def expandUnits (vac : List (Int × Int)) : List Int :=
  (vac.filter (fun p => 0 < p.2)).flatMap (fun p => List.replicate p.2.toNat p.1)

/-- `len(vacant_units[vacant_units < 0])`, computed before the `> 0`
filter: the diagnostic count of overfull buildings. -/
def overfullCount (vac : List (Int × Int)) : Nat :=
  (vac.filter (fun p => p.2 < 0)).length

/-- `pd.Series(indexes).isin(locations_df.index)` filtering: the
candidate-unit entries whose building actually joins into the locations
frame; these are the rows of the `units` frame handed to the predictor. -/
def candidateRows (vac : List (Int × Int)) (locIds : List Int) : List Int :=
  (expandUnits vac).filter (fun i => locIds.contains i)

/-- `vacant_units.sum()` as it stands at the truncation guard (after the
`> 0` filter). -/
def posVacSum (vac : List (Int × Int)) : Int :=
  ((vac.filter (fun p => 0 < p.2)).map Prod.snd).sum

/-- `if len(movers) > vacant_units.sum(): movers =
movers.head(int(vacant_units.sum()))`. -/
def truncateMovers (movers : List Int) (vac : List (Int × Int)) : List Int :=
  if (movers.length : Int) > posVacSum vac then
    movers.take (posVacSum vac).toNat
  else movers

/-! `simple_relocation`. -/

/-- Python `int()` on a rational: truncation toward zero. -/
def pyInt (q : ℚ) : Int := if 0 ≤ q then ⌊q⌋ else ⌈q⌉

/-- The sample size `int(relocation_rate * len(choosers))` handed to
`np.random.choice(..., replace=False)`. -/
def relocSampleSize (rate : ℚ) (n : Nat) : Nat := (pyInt (rate * n)).toNat

/-- The per-agent effect of
`choosers.update_col_from_series(fieldname, pd.Series(-1, index=chooser_ids))`:
sampled ids get the location field set to `-1`, all other rows are
untouched. -/
def relocUpdate (chosen : List Int) (a : Agent) : Agent :=
  if chosen.contains a.aid then { a with building_id := -1 } else a

/-- `simple_relocation` applied to the agent table, parametrized by the
ids `chosen` drawn by the external sampler (which returns
`relocSampleSize rate agents.length` distinct ids). -/
def simpleRelocation (agents : List Agent) (chosen : List Int) : List Agent :=
  agents.map (relocUpdate chosen)

/-! The supply-correction price pipeline of `lcm_simulate`. -/

/-- A building row as seen by the supply-correction code of
`lcm_simulate`: id, the `price_col` value and the `submarket_col` value. -/
structure PriceBldg where
  bid : Int
  price : ℚ
  submarket : Int
  deriving Repr, DecidableEq

/-- The final clipping of `lcm_simulate`:
`new_prices.clip(lower=...)` when `clip_final_price_low` is configured,
then `.clip(upper=...)` when `clip_final_price_high` is configured. -/
def clipFinalPrice (q : ℚ) (lo hi : Option ℚ) : ℚ :=
  let q1 := match lo with
    | some l => max q l
    | none => q
  match hi with
  | some h => min q1 h
  | none => q1

/-- Lines 464-468 of the source: the per-submarket shifters are applied to
the building-level price column
(`new_prices = buildings[price_col] * submarkets_ratios.loc[buildings[submarket_col]].values`
followed by `buildings.update_col_from_series(price_col, new_prices)`). -/
def applyShifters (bldgs : List PriceBldg) (ratios : Int → ℚ) : List PriceBldg :=
  bldgs.map (fun b => { b with price := b.price * ratios b.submarket })

/-- Lines 500-508 of the source: the post-choice clipping pass written
back to the buildings table. -/
def applyFinalClip (bldgs : List PriceBldg) (lo hi : Option ℚ) : List PriceBldg :=
  bldgs.map (fun b => { b with price := clipFinalPrice b.price lo hi })

/-- The price-relevant sequence of `lcm_simulate` with supply correction
enabled, in source order: the `locations_df`/`units` frames are
materialized from the buildings table before the correction block; the
un-shifted prices are saved under the `*_hedonic` column; the shifters
are applied to the buildings table only (per the source comment, "apply
shifters directly to buildings and ignore unit prices", the `units` frame
is never refreshed); the discrete-choice predictor then runs on the
`units` frame; the clipping runs after the choice and is stored on the
buildings table.  Returns (price column of the `units` frame the choice
sees, the saved hedonic copy, the buildings table after the final
clip). -/
def lcmPriceRun (bldgs : List PriceBldg) (ratios : Int → ℚ) (lo hi : Option ℚ) :
    List PriceBldg × List PriceBldg × List PriceBldg :=
  let unitsFrame := bldgs
  let hedonicCopy := bldgs
  let shifted := applyShifters bldgs ratios
  let stored := applyFinalClip shifted lo hi
  (unitsFrame, hedonicCopy, stored)

/-! `full_transition`. -/

/-- The slice of the settings dict read by `full_transition`. -/
structure TransitionSettings where
  total_column : Option String
  add_columns : List String
  deriving Repr, DecidableEq

/-- The failure modes of the embedded utilities: a missing required
settings key, and missing values found after a join. -/
inductive UtilsError
  | configurationError
  | dataIntegrityError
  deriving Repr, DecidableEq

/-- `orca.add_table(name, df)` for an agent table: replace the named
table, or add it when absent. -/
def addAgentTable (nm : String) (ags : List Agent) (st : Store) : Store :=
  { st with agentTables :=
      if st.agentTables.any (fun p => p.1 == nm) then
        st.agentTables.map (fun p => if p.1 == nm then (nm, ags) else p)
      else (nm, ags) :: st.agentTables }

/-- `full_transition(agents, agent_controls, year, settings, location_fname)`
with no linked tables (printing elided): the control totals and the agent
frame are read, then `settings['total_column']` is looked up - a missing
key aborts the step before anything is written to the store; otherwise
the external transition primitive `trans` runs (returning the new frame
and the added ids), the added rows get the location field set to `-1`,
and the agents table is written back.  Returns the store (unchanged on
error) and the error, if any. -/
def full_transition (agents : List Agent) (agentsName : String)
    (settings : TransitionSettings)
    (trans : List Agent → List Agent × List Int) (st : Store) :
    Store × Option UtilsError :=
  match settings.total_column with
  | none => (st, some UtilsError.configurationError)
  | some _ =>
    let t := trans agents
    let placed := t.1.map (fun a =>
      if t.2.contains a.aid then { a with building_id := -1 } else a)
    (addAgentTable agentsName placed st, none)

/-! `check_nas` and `to_frame`. -/

/-- A cell of a joined frame: a finite value, a missing value (NA), or an
infinite value. -/
inductive Cell
  | val (q : ℚ)
  | na
  | inf
  | ninf
  deriving Repr, DecidableEq

/-- `df.replace([np.inf, -np.inf], np.nan)` at the start of `check_nas`. -/
def replaceInf : Cell → Cell
  | Cell.inf => Cell.na
  | Cell.ninf => Cell.na
  | c => c

/-- `df[col].count()`: the number of non-NA entries of a column. -/
def colCount (col : List Cell) : Nat :=
  (col.filter (fun c => c != Cell.na)).length

/-- `check_nas(df)`: after replacing infinities by NA, the check fails
(the source's `assert not fail`) exactly when some column counts fewer
non-NA entries than it has rows.  The frame is modelled as the list of
its columns. -/
def check_nas (df : List (List Cell)) : Except UtilsError Unit :=
  if df.any (fun col => colCount (col.map replaceInf) != col.length) then
    Except.error UtilsError.dataIntegrityError
  else Except.ok ()

/-- `to_frame`: the frame produced by the external join is run through
`check_nas` and returned unchanged when the check passes. -/
def to_frame (joined : List (List Cell)) : Except UtilsError (List (List Cell)) :=
  match check_nas joined with
  | Except.error e => Except.error e
  | Except.ok _ => Except.ok joined

/-! `run_developer`: the target-unit computation. -/

/-- `target_units = num_units_to_build or dev.compute_units_to_build(...)`
in `run_developer`: Python `or` yields its left operand when that operand
is truthy; `None` and `0` are falsy and fall through to the internally
computed target. -/
def targetUnits (num_units_to_build : Option Int) (computed : Int) : Int :=
  match num_units_to_build with
  | none => computed
  | some n => if n = 0 then computed else n

/-! Theorems. -/

theorem dropBuildings_mem_old {old_buildings new_buildings : List Building}
    {b : Building} (h : b ∈ dropBuildings old_buildings new_buildings) :
    b ∈ old_buildings := (List.mem_filter.mp h).1

theorem recordDropped_agentTables (drops : List Building) (st : Store) :
    (recordDropped drops st).agentTables = st.agentTables := by
  unfold recordDropped
  cases st.dropped_buildings <;> rfl

theorem removeDeveloped_agentTables (old_buildings new_buildings : List Building)
    (unplace_agents : List String) (st : Store) :
    (removeDevelopedBuildings old_buildings new_buildings unplace_agents st).2.agentTables
      = st.agentTables.map (fun p =>
          if unplace_agents.contains p.1 then
            (p.1, unplaceDisplaced (dropBuildings old_buildings new_buildings) p.2)
          else p) := by
  simp [removeDevelopedBuildings, recordDropped_agentTables]

theorem unplaceDisplaced_no_dropped_ref {drops : List Building}
    (hneg : (-1 : Int) ∉ drops.map Building.bid) (ags : List Agent) :
    ∀ a ∈ unplaceDisplaced drops ags,
      a.building_id ∉ drops.map Building.bid := by
  intro a ha
  rcases List.mem_map.mp ha with ⟨a0, _, rfl⟩
  by_cases hc : drops.any (fun d => d.bid == a0.building_id)
  · simp only [hc, if_pos]
    exact hneg
  · simp only [hc, if_neg, Bool.false_eq_true, not_false_iff]
    intro hmem
    rcases List.mem_map.mp hmem with ⟨d, hd, hdb⟩
    exact hc (List.any_eq_true.mpr ⟨d, hd, by simp [hdb]⟩)

/-- C1: after `_remove_developed_buildings(old, new, unplace_agents)`, in
every agent table named in `unplace_agents` no agent's `building_id`
equals the id of a removed building; every agent that referenced a
building whose parcel appears among the new buildings' parcels has
`building_id` set to `-1`; and exactly the old buildings whose parcel id
lies in the new buildings' parcel-id set are removed from the returned
old-buildings table. -/
theorem removeDeveloped_unplaces_and_removes_exactly
    (old_buildings new_buildings : List Building) (unplace_agents : List String)
    (st : Store)
    (hneg : (-1 : Int) ∉ old_buildings.map Building.bid) :
    (∀ b, b ∈ (removeDevelopedBuildings old_buildings new_buildings unplace_agents st).1 ↔
        b ∈ old_buildings ∧ b.parcel_id ∉ new_buildings.map Building.parcel_id) ∧
    (∀ nm ags,
        (nm, ags) ∈
          (removeDevelopedBuildings old_buildings new_buildings unplace_agents st).2.agentTables →
        nm ∈ unplace_agents →
        ∀ a ∈ ags,
          a.building_id ∉ (dropBuildings old_buildings new_buildings).map Building.bid) ∧
    (∀ nm ags, (nm, ags) ∈ st.agentTables → nm ∈ unplace_agents →
        (nm, unplaceDisplaced (dropBuildings old_buildings new_buildings) ags) ∈
          (removeDevelopedBuildings old_buildings new_buildings unplace_agents st).2.agentTables ∧
        ∀ a ∈ ags,
          a.building_id ∈ (dropBuildings old_buildings new_buildings).map Building.bid →
          { a with building_id := -1 } ∈
            unplaceDisplaced (dropBuildings old_buildings new_buildings) ags) := by
  have hnegd : (-1 : Int) ∉ (dropBuildings old_buildings new_buildings).map Building.bid := by
    intro h
    rcases List.mem_map.mp h with ⟨d, hd, hdb⟩
    exact hneg (List.mem_map.mpr ⟨d, dropBuildings_mem_old hd, hdb⟩)
  refine ⟨?_, ?_, ?_⟩
  · intro b
    simp only [removeDevelopedBuildings, keepBuildings, List.mem_filter,
      Bool.not_eq_true', List.any_eq_false, beq_iff_eq, List.mem_map,
      not_exists]
    constructor
    · rintro ⟨hb, hall⟩
      exact ⟨hb, fun nb => by intro hc; exact hall nb hc.1 hc.2⟩
    · rintro ⟨hb, hnotin⟩
      exact ⟨hb, fun nb hnb he => hnotin nb ⟨hnb, he⟩⟩
  · intro nm ags hmem hnm a ha
    rw [removeDeveloped_agentTables] at hmem
    rcases List.mem_map.mp hmem with ⟨p, hp, hfp⟩
    by_cases hc : unplace_agents.contains p.1
    · rw [if_pos hc] at hfp
      have hags : ags = unplaceDisplaced (dropBuildings old_buildings new_buildings) p.2 := by
        have := (Prod.mk.injEq _ _ _ _).mp hfp
        exact this.2.symm
      rw [hags] at ha
      exact unplaceDisplaced_no_dropped_ref hnegd p.2 a ha
    · rw [if_neg hc] at hfp
      rw [hfp] at hc
      exact absurd (List.elem_eq_true_of_mem hnm) hc
  · intro nm ags hmem hnm
    have hc : unplace_agents.contains nm := List.elem_eq_true_of_mem hnm
    constructor
    · rw [removeDeveloped_agentTables]
      have := List.mem_map_of_mem (f := fun p : String × List Agent =>
        if unplace_agents.contains p.1 then
          (p.1, unplaceDisplaced (dropBuildings old_buildings new_buildings) p.2)
        else p) hmem
      simpa [hnm] using this
    · intro a ha hid
      rcases List.mem_map.mp hid with ⟨d, hd, hdb⟩
      have hcond : (dropBuildings old_buildings new_buildings).any
          (fun x => x.bid == a.building_id) = true :=
        List.any_eq_true.mpr ⟨d, hd, by simp [hdb]⟩
      have : ({ a with building_id := -1 } : Agent)
          = (fun x : Agent =>
              if (dropBuildings old_buildings new_buildings).any
                  (fun d => d.bid == x.building_id) then
                { x with building_id := -1 }
              else x) a := by
        simp [hcond]
      rw [this]
      exact List.mem_map_of_mem _ ha

theorem removeDeveloped_unplaces_witness :
    ((-1 : Int) ∉ ([⟨1, 10⟩, ⟨2, 20⟩] : List Building).map Building.bid) ∧
    ((⟨1, 10⟩ : Building) ∈
      (removeDevelopedBuildings [⟨1, 10⟩, ⟨2, 20⟩] [⟨5, 20⟩] ["households"]
        { dropped_buildings := none,
          agentTables := [("households", [⟨100, 2⟩, ⟨101, 1⟩])] }).1) :=
  ⟨by decide,
   ((removeDeveloped_unplaces_and_removes_exactly [⟨1, 10⟩, ⟨2, 20⟩] [⟨5, 20⟩]
      ["households"]
      { dropped_buildings := none,
        agentTables := [("households", [⟨100, 2⟩, ⟨101, 1⟩])] }
      (by decide)).1 ⟨1, 10⟩).mpr (by decide)⟩

/-- C6: when the new buildings' parcel ids are disjoint from the old
buildings' parcel ids, `_remove_developed_buildings` returns the old
table unchanged and modifies no agent table. -/
theorem removeDeveloped_disjoint_noop
    (old_buildings new_buildings : List Building) (unplace_agents : List String)
    (st : Store)
    (hdisj : ∀ b ∈ old_buildings,
      b.parcel_id ∉ new_buildings.map Building.parcel_id) :
    (removeDevelopedBuildings old_buildings new_buildings unplace_agents st).1
      = old_buildings ∧
    (removeDevelopedBuildings old_buildings new_buildings unplace_agents st).2.agentTables
      = st.agentTables := by
  have hfalse : ∀ b ∈ old_buildings,
      (new_buildings.any (fun nb => nb.parcel_id == b.parcel_id)) = false := by
    intro b hb
    rw [List.any_eq_false]
    intro nb hnb
    simp only [beq_iff_eq]
    intro he
    exact hdisj b hb (List.mem_map.mpr ⟨nb, hnb, he⟩)
  have hdrop : dropBuildings old_buildings new_buildings = [] := by
    rw [dropBuildings, List.filter_eq_nil_iff]
    intro b hb
    simp [hfalse b hb]
  constructor
  · show keepBuildings old_buildings new_buildings = old_buildings
    rw [keepBuildings, List.filter_eq_self]
    intro b hb
    simp [hfalse b hb]
  · rw [removeDeveloped_agentTables, hdrop]
    have hp : ∀ p : String × List Agent,
        (if unplace_agents.contains p.1 then (p.1, unplaceDisplaced [] p.2)
         else p) = p := by
      intro p
      by_cases hc : unplace_agents.contains p.1
      · rw [if_pos hc]
        have hu : unplaceDisplaced [] p.2 = p.2 := by
          simp [unplaceDisplaced]
        rw [hu]
      · rw [if_neg hc]
    simp only [hp]
    exact List.map_id st.agentTables

theorem removeDeveloped_disjoint_witness :
    (∀ b ∈ ([⟨1, 10⟩, ⟨2, 20⟩] : List Building),
      b.parcel_id ∉ ([⟨5, 30⟩] : List Building).map Building.parcel_id) ∧
    (removeDevelopedBuildings [⟨1, 10⟩, ⟨2, 20⟩] [⟨5, 30⟩] ["households"]
      { dropped_buildings := none,
        agentTables := [("households", [⟨100, 1⟩])] }).1 = [⟨1, 10⟩, ⟨2, 20⟩] :=
  ⟨by decide,
   (removeDeveloped_disjoint_noop [⟨1, 10⟩, ⟨2, 20⟩] [⟨5, 30⟩] ["households"]
      { dropped_buildings := none,
        agentTables := [("households", [⟨100, 1⟩])] } (by decide)).1⟩

theorem recordDropped_dropped (drops : List Building) (st : Store) :
    (recordDropped drops st).dropped_buildings
      = some (drops ++ recordedDrops st) := by
  unfold recordDropped recordedDrops
  cases st.dropped_buildings <;> simp

/-- C10 counterexample: a call that removes no building still creates the
`dropped_buildings` table (empty), so the table is created on the first
call, not on the first removal. -/
theorem droppedBuildings_created_without_removal :
    dropBuildings [⟨1, 10⟩] [⟨2, 20⟩] = [] ∧
    ({ dropped_buildings := none, agentTables := [] } : Store).dropped_buildings
      = none ∧
    (removeDevelopedBuildings [⟨1, 10⟩] [⟨2, 20⟩] []
      { dropped_buildings := none, agentTables := [] }).2.dropped_buildings
      = some [] :=
  ⟨by decide, rfl, by decide⟩

/-- C10 (amended): every call to `_remove_developed_buildings` prepends
the full rows of the buildings it removes to the persistent
`dropped_buildings` table, creating the table on the first call (even a
call that removes nothing creates it, empty); hence the recorded rows are
non-decreasing across calls and every building ever removed remains
recorded. -/
theorem droppedBuildings_ledger_monotone
    (old_buildings new_buildings : List Building) (unplace_agents : List String)
    (st : Store) :
    (removeDevelopedBuildings old_buildings new_buildings
        unplace_agents st).2.dropped_buildings
      = some (dropBuildings old_buildings new_buildings ++ recordedDrops st) ∧
    (∀ b ∈ recordedDrops st,
      b ∈ recordedDrops
        (removeDevelopedBuildings old_buildings new_buildings unplace_agents st).2) ∧
    (∀ b ∈ dropBuildings old_buildings new_buildings,
      b ∈ recordedDrops
        (removeDevelopedBuildings old_buildings new_buildings unplace_agents st).2) := by
  have h1 : (removeDevelopedBuildings old_buildings new_buildings
        unplace_agents st).2.dropped_buildings
      = some (dropBuildings old_buildings new_buildings ++ recordedDrops st) := by
    show (recordDropped (dropBuildings old_buildings new_buildings) st).dropped_buildings = _
    exact recordDropped_dropped _ _
  refine ⟨h1, ?_, ?_⟩
  · intro b hb
    unfold recordedDrops
    rw [h1]
    simp [hb]
  · intro b hb
    unfold recordedDrops
    rw [h1]
    simp [hb]

theorem expandUnits_cons (p : Int × Int) (rest : List (Int × Int)) :
    expandUnits (p :: rest)
      = (if 0 < p.2 then List.replicate p.2.toNat p.1 else [])
        ++ expandUnits rest := by
  by_cases h : 0 < p.2 <;> simp [expandUnits, List.filter_cons, h]

theorem mem_expandUnits {vac : List (Int × Int)} {x : Int}
    (h : x ∈ expandUnits vac) : x ∈ vac.map Prod.fst := by
  rcases List.mem_flatMap.mp h with ⟨p, hp, hx⟩
  exact List.mem_map.mpr
    ⟨p, (List.mem_filter.mp hp).1, (List.eq_of_mem_replicate hx).symm⟩

theorem expandUnits_count (vac : List (Int × Int))
    (hnd : (vac.map Prod.fst).Nodup) (b v : Int) (hmem : (b, v) ∈ vac) :
    (expandUnits vac).count b = if 0 < v then v.toNat else 0 := by
  induction vac with
  | nil => cases hmem
  | cons p rest ih =>
    have hnd' : (rest.map Prod.fst).Nodup := (List.nodup_cons.mp hnd).2
    have hhead : p.1 ∉ rest.map Prod.fst := (List.nodup_cons.mp hnd).1
    rw [expandUnits_cons, List.count_append]
    rcases List.mem_cons.mp hmem with heq | htl
    · have hb1 : p.1 = b := by rw [← heq]
      have hb2 : p.2 = v := by rw [← heq]
      have hzero : (expandUnits rest).count b = 0 := by
        rw [List.count_eq_zero]
        intro hxin
        exact hhead (hb1 ▸ mem_expandUnits hxin)
      rw [hzero, hb1, hb2]
      by_cases hv : 0 < v
      · simp [hv, List.count_replicate]
      · simp [hv]
    · have hbmem : b ∈ rest.map Prod.fst := List.mem_map.mpr ⟨(b, v), htl, rfl⟩
      have hne : p.1 ≠ b := fun he => hhead (he ▸ hbmem)
      have hzero : (if 0 < p.2 then List.replicate p.2.toNat p.1 else []).count b
          = 0 := by
        by_cases hp : 0 < p.2
        · simp [hp, List.count_replicate, hne]
        · simp [hp]
      rw [hzero, ih hnd' htl, Nat.zero_add]

/-- C2: in the candidate-unit expansion of `lcm_simulate`, a building
with vacant count `v > 0` contributes exactly `v` candidate rows, all
referencing that building; a building with zero or negative vacancy
contributes none; and the number of negative-vacancy buildings is exactly
the overfull diagnostic count. -/
theorem expandUnits_per_building (vac : List (Int × Int))
    (hnd : (vac.map Prod.fst).Nodup) :
    (∀ b v, (b, v) ∈ vac →
      (expandUnits vac).count b = if 0 < v then v.toNat else 0) ∧
    overfullCount vac = ((vac.map Prod.snd).filter (fun v => v < 0)).length := by
  refine ⟨fun b v hmem => expandUnits_count vac hnd b v hmem, ?_⟩
  unfold overfullCount
  rw [List.filter_map, List.length_map]
  rfl

theorem expandUnits_per_building_witness :
    (([((1 : Int), (5 : Int)), (2, -1)].map Prod.fst).Nodup) ∧
    (expandUnits [(1, 5), (2, -1)]).count 1 = 5 ∧
    expandUnits [(1, 5), (2, -1)] = List.replicate 5 1 ∧
    overfullCount [(1, 5), (2, -1)] = 1 :=
  ⟨by decide,
   by
     have h := (expandUnits_per_building [(1, 5), (2, -1)] (by decide)).1 1 5
       (by decide)
     simpa using h,
   by decide, by decide⟩

theorem posVacSum_cons (p : Int × Int) (rest : List (Int × Int)) :
    posVacSum (p :: rest) = (if 0 < p.2 then p.2 else 0) + posVacSum rest := by
  by_cases h : 0 < p.2 <;> simp [posVacSum, List.filter_cons, h]

theorem posVacSum_nonneg (vac : List (Int × Int)) : 0 ≤ posVacSum vac := by
  apply List.sum_nonneg
  intro x hx
  rcases List.mem_map.mp hx with ⟨p, hp, rfl⟩
  exact le_of_lt (of_decide_eq_true (List.mem_filter.mp hp).2)

theorem length_expandUnits (vac : List (Int × Int)) :
    ((expandUnits vac).length : Int) = posVacSum vac := by
  induction vac with
  | nil => rfl
  | cons p rest ih =>
    rw [expandUnits_cons, List.length_append, posVacSum_cons, Nat.cast_add, ih]
    by_cases h : 0 < p.2
    · simp [h, Int.toNat_of_nonneg (le_of_lt h)]
    · simp [h]

/-- C3 counterexample: building 1 (vacancy 2) joins into the locations
frame but building 2 (vacancy 3) does not, so the reconciled `units`
frame has 2 candidate rows; three movers exceed the candidate rows, yet
no truncation happens because the guard compares against the
pre-reconciliation vacant sum `vacant_units.sum() = 5`. -/
theorem moverTruncation_counterexample :
    (candidateRows [(1, 2), (2, 3)] [1]).length = 2 ∧
    truncateMovers [101, 102, 103] [(1, 2), (2, 3)] = [101, 102, 103] := by
  constructor <;> decide

/-- C3 (amended): the truncation guard of `lcm_simulate` compares the
movers against `vacant_units.sum()` - the total positive vacant capacity
before the locations-frame reconciliation - not against the reconciled
candidate-row count; whenever the movers exceed that sum they are cut to
exactly that many by `head`, i.e. a deterministic initial segment of the
mover table, never a random sample - including when reconciliation
dropped rows and the sum exceeds the candidate-row count.  Only when
every expanded unit's building joins into the locations frame (no
reconciliation drops) does that count equal the candidate-row count,
recovering the claim's reading. -/
theorem moverTruncation_head (movers : List Int) (vac : List (Int × Int))
    (locIds : List Int)
    (hm : (movers.length : Int) > posVacSum vac) :
    truncateMovers movers vac = movers.take (posVacSum vac).toNat ∧
    ((truncateMovers movers vac).length : Int) = posVacSum vac ∧
    ((∀ i ∈ expandUnits vac, locIds.contains i = true) →
      (truncateMovers movers vac).length = (candidateRows vac locIds).length) := by
  have htr : truncateMovers movers vac = movers.take (posVacSum vac).toNat := by
    rw [truncateMovers, if_pos hm]
  have hle : (posVacSum vac).toNat ≤ movers.length := by
    have := Int.toNat_le_toNat (le_of_lt hm)
    rwa [Int.toNat_natCast] at this
  have hlen : (truncateMovers movers vac).length = (posVacSum vac).toNat := by
    rw [htr, List.length_take]
    exact Nat.min_eq_left hle
  refine ⟨htr, ?_, ?_⟩
  · rw [hlen, Int.toNat_of_nonneg (posVacSum_nonneg vac)]
  · intro hall
    have hcr : candidateRows vac locIds = expandUnits vac := by
      rw [candidateRows, List.filter_eq_self]
      exact hall
    have hexp : (expandUnits vac).length = (posVacSum vac).toNat := by
      rw [← length_expandUnits, Int.toNat_natCast]
    rw [hlen, hcr, hexp]

theorem moverTruncation_head_witness :
    ((([101, 102, 103, 104, 105, 106] : List Int).length : Int)
        > posVacSum [(1, 2), (2, 3)]) ∧
    truncateMovers [101, 102, 103, 104, 105, 106] [(1, 2), (2, 3)]
      = [101, 102, 103, 104, 105] ∧
    ((truncateMovers [101, 102, 103, 104, 105, 106] [(1, 2), (2, 3)]).length : Int)
      = posVacSum [(1, 2), (2, 3)] ∧
    (candidateRows [(1, 2), (2, 3)] [1]).length = 2 :=
  ⟨by decide,
   by
     rw [(moverTruncation_head [101, 102, 103, 104, 105, 106] [(1, 2), (2, 3)]
       [1] (by decide)).1]
     decide,
   (moverTruncation_head [101, 102, 103, 104, 105, 106] [(1, 2), (2, 3)] [1]
     (by decide)).2.1,
   by decide⟩

theorem pyInt_eq_floor {q : ℚ} (hq : 0 ≤ q) : pyInt q = ⌊q⌋ := if_pos hq

theorem filter_contains_length {l c : List Int} (hl : l.Nodup) (hc : c.Nodup)
    (hsub : ∀ x ∈ c, x ∈ l) :
    (l.filter (fun x => c.contains x)).length = c.length := by
  have hperm : List.Perm (l.filter (fun x => c.contains x)) c := by
    apply (List.perm_ext_iff_of_nodup (hl.filter _) hc).mpr
    intro a
    simp only [List.mem_filter, List.elem_eq_mem, decide_eq_true_eq]
    exact ⟨fun h => h.2, fun h => ⟨hsub a h, h⟩⟩
  exact hperm.length_eq

/-- C4: with the sampler contract of
`np.random.choice(choosers.index, size=int(rate*N), replace=False)` -
`chosen` is a duplicate-free list of `relocSampleSize rate N` ids drawn
from the full agent index - `simple_relocation` sets the location field
of exactly `⌊rate * N⌋` distinct agents to `-1` and leaves every other
agent row unchanged. -/
theorem simpleRelocation_marks_floor (agents : List Agent) (chosen : List Int)
    (rate : ℚ) (hr : 0 ≤ rate)
    (hagents : (agents.map Agent.aid).Nodup)
    (hcnd : chosen.Nodup)
    (hsub : ∀ c ∈ chosen, c ∈ agents.map Agent.aid)
    (hlen : chosen.length = relocSampleSize rate agents.length) :
    simpleRelocation agents chosen = agents.map (relocUpdate chosen) ∧
    (∀ a : Agent, a.aid ∈ chosen →
      relocUpdate chosen a = { a with building_id := -1 }) ∧
    (∀ a : Agent, a.aid ∉ chosen → relocUpdate chosen a = a) ∧
    (agents.filter (fun a => chosen.contains a.aid)).length
      = (⌊rate * (agents.length : ℚ)⌋).toNat := by
  refine ⟨rfl, ?_, ?_, ?_⟩
  · intro a ha
    rw [relocUpdate, if_pos (List.elem_eq_true_of_mem ha)]
  · intro a ha
    rw [relocUpdate, if_neg]
    intro hcon
    exact ha (List.mem_of_elem_eq_true hcon)
  · have hmapped : (agents.filter (fun a => chosen.contains a.aid)).length
        = ((agents.map Agent.aid).filter (fun x => chosen.contains x)).length := by
      rw [List.filter_map, List.length_map]
      rfl
    have hnn : (0 : ℚ) ≤ rate * (agents.length : ℚ) :=
      mul_nonneg hr (Nat.cast_nonneg _)
    rw [hmapped, filter_contains_length hagents hcnd hsub, hlen,
      relocSampleSize, pyInt_eq_floor hnn]

theorem simpleRelocation_marks_floor_witness :
    ((0 : ℚ) ≤ 1 / 2) ∧
    (([⟨1, 10⟩, ⟨2, -1⟩, ⟨3, 20⟩, ⟨4, 30⟩] : List Agent).filter
        (fun a => ([1, 3] : List Int).contains a.aid)).length
      = (⌊(1 / 2 : ℚ) *
          (([⟨1, 10⟩, ⟨2, -1⟩, ⟨3, 20⟩, ⟨4, 30⟩] : List Agent).length : ℚ)⌋).toNat :=
  ⟨by norm_num,
   (simpleRelocation_marks_floor [⟨1, 10⟩, ⟨2, -1⟩, ⟨3, 20⟩, ⟨4, 30⟩] [1, 3]
     (1 / 2) (by norm_num) (by decide) (by decide) (by decide)
     (by norm_num [relocSampleSize, pyInt]; decide)).2.2.2⟩

/-- C5 counterexample: one building priced 100 in submarket 0, shifter
3/2, `clip_final_price_high = 120`.  The equilibrated building price is
150, but the `units` frame handed to the choice predictor still carries
price 100 (it was materialized before the correction and, per the source
comment, unit prices are deliberately ignored): the choice does not see
the equilibrated price.  The stored final price is the clipped 120. -/
theorem lcmPrice_counterexample :
    (applyShifters [⟨1, 100, 0⟩] (fun _ => 3 / 2)).map PriceBldg.price = [150] ∧
    ((lcmPriceRun [⟨1, 100, 0⟩] (fun _ => 3 / 2) none (some 120)).1).map
        PriceBldg.price = [100] ∧
    ((lcmPriceRun [⟨1, 100, 0⟩] (fun _ => 3 / 2) none (some 120)).2.2).map
        PriceBldg.price = [120] := by
  refine ⟨?_, ?_, ?_⟩ <;>
    norm_num [applyShifters, lcmPriceRun, applyFinalClip, clipFinalPrice]

/-- C5 (amended): in `lcm_simulate` with supply correction, the clip to
the configured low/high bounds is applied after the discrete-choice step
and the finally stored building price is exactly the clipped equilibrated
price (a post-equilibration price of 150 with high bound 120 stores
exactly 120); the choice itself, however, sees the unclipped prices of
the `units` frame materialized before equilibration - the original
prices, not the equilibrated ones. -/
theorem lcmPrice_clip_after_choice (bldgs : List PriceBldg) (ratios : Int → ℚ)
    (lo hi : Option ℚ) :
    (lcmPriceRun bldgs ratios lo hi).1 = bldgs ∧
    (lcmPriceRun bldgs ratios lo hi).2.1 = bldgs ∧
    (lcmPriceRun bldgs ratios lo hi).2.2
      = applyFinalClip (applyShifters bldgs ratios) lo hi ∧
    (∀ b ∈ bldgs,
      (⟨b.bid, clipFinalPrice (b.price * ratios b.submarket) lo hi,
        b.submarket⟩ : PriceBldg) ∈ (lcmPriceRun bldgs ratios lo hi).2.2) ∧
    clipFinalPrice 150 none (some 120) = 120 := by
  refine ⟨rfl, rfl, rfl, ?_, by norm_num [clipFinalPrice]⟩
  intro b hb
  show _ ∈ applyFinalClip (applyShifters bldgs ratios) lo hi
  rw [applyFinalClip, applyShifters, List.map_map]
  exact List.mem_map.mpr ⟨b, hb, rfl⟩

/-- C7: `full_transition` fails with the configuration error whenever the
`total_column` key is missing from the settings, and the store (hence the
agents table) is returned unmodified in that case. -/
theorem fullTransition_missing_total_column (agents : List Agent)
    (agentsName : String) (settings : TransitionSettings)
    (trans : List Agent → List Agent × List Int) (st : Store)
    (hmiss : settings.total_column = none) :
    full_transition agents agentsName settings trans st
      = (st, some UtilsError.configurationError) := by
  unfold full_transition
  rw [hmiss]

theorem fullTransition_missing_witness :
    ({ total_column := none, add_columns := [] } : TransitionSettings).total_column
      = none ∧
    full_transition [] "households"
        { total_column := none, add_columns := [] } (fun l => (l, []))
        { dropped_buildings := none, agentTables := [] }
      = ({ dropped_buildings := none, agentTables := [] },
         some UtilsError.configurationError) :=
  ⟨rfl,
   fullTransition_missing_total_column [] "households"
     { total_column := none, add_columns := [] } (fun l => (l, []))
     { dropped_buildings := none, agentTables := [] } rfl⟩

theorem cellGood_iff (c : Cell) :
    (replaceInf c != Cell.na) = true ↔
      c ≠ Cell.na ∧ c ≠ Cell.inf ∧ c ≠ Cell.ninf := by
  cases c <;> simp [replaceInf]

theorem colCount_eq_length_iff (col : List Cell) :
    colCount (col.map replaceInf) = col.length ↔
      ∀ c ∈ col, c ≠ Cell.na ∧ c ≠ Cell.inf ∧ c ≠ Cell.ninf := by
  unfold colCount
  rw [List.filter_map, List.length_map]
  constructor
  · intro h c hc
    have hall := List.filter_length_eq_length.mp h
    exact (cellGood_iff c).mp (hall c hc)
  · intro h
    apply List.filter_length_eq_length.mpr
    intro c hc
    exact (cellGood_iff c).mpr (h c hc)

theorem colBad_iff (col : List Cell) :
    (colCount (col.map replaceInf) != col.length) = true ↔
      ∃ c ∈ col, c = Cell.na ∨ c = Cell.inf ∨ c = Cell.ninf := by
  rw [bne_iff_ne, Ne, colCount_eq_length_iff]
  constructor
  · intro h
    by_contra hno
    push_neg at hno
    exact h fun c hc => hno c hc
  · rintro ⟨c, hc, hbad⟩ hall
    rcases hall c hc with ⟨h1, h2, h3⟩
    rcases hbad with h | h | h
    · exact h1 h
    · exact h2 h
    · exact h3 h

/-- C8: `to_frame` runs `check_nas` on the joined frame: it fails (with
the data-integrity error) exactly when some column of the frame contains
a missing or infinite value, and otherwise returns the frame unchanged -
it never drops values or proceeds past them. -/
theorem toFrame_fails_iff_missing (joined : List (List Cell)) :
    (to_frame joined = Except.error UtilsError.dataIntegrityError ↔
      ∃ col ∈ joined, ∃ c ∈ col,
        c = Cell.na ∨ c = Cell.inf ∨ c = Cell.ninf) ∧
    (to_frame joined = Except.ok joined ↔
      ∀ col ∈ joined, ∀ c ∈ col,
        c ≠ Cell.na ∧ c ≠ Cell.inf ∧ c ≠ Cell.ninf) := by
  by_cases hany : joined.any
      (fun col => colCount (col.map replaceInf) != col.length) = true
  · have hex : ∃ col ∈ joined, ∃ c ∈ col,
        c = Cell.na ∨ c = Cell.inf ∨ c = Cell.ninf := by
      rcases List.any_eq_true.mp hany with ⟨col, hcol, hbad⟩
      exact ⟨col, hcol, (colBad_iff col).mp hbad⟩
    have herr : to_frame joined = Except.error UtilsError.dataIntegrityError := by
      unfold to_frame check_nas
      rw [if_pos hany]
    constructor
    · exact ⟨fun _ => hex, fun _ => herr⟩
    · constructor
      · intro hok
        rw [herr] at hok
        cases hok
      · intro hall
        rcases hex with ⟨col, hcol, c, hc, hbad⟩
        rcases hall col hcol c hc with ⟨h1, h2, h3⟩
        rcases hbad with h | h | h
        · exact absurd h h1
        · exact absurd h h2
        · exact absurd h h3
  · have hok : to_frame joined = Except.ok joined := by
      unfold to_frame check_nas
      rw [if_neg hany]
    have hall : ∀ col ∈ joined, ∀ c ∈ col,
        c ≠ Cell.na ∧ c ≠ Cell.inf ∧ c ≠ Cell.ninf := by
      intro col hcol c hc
      have hfalse := List.any_eq_false.mp (Bool.eq_false_iff.mpr hany)
      have hcolf := hfalse col hcol
      have hgood : colCount (col.map replaceInf) = col.length := by
        by_contra hne
        exact hcolf (bne_iff_ne.mpr hne)
      exact (colCount_eq_length_iff col).mp hgood c hc
    constructor
    · constructor
      · intro herr
        rw [hok] at herr
        cases herr
      · rintro ⟨col, hcol, c, hc, hbad⟩
        rcases hall col hcol c hc with ⟨h1, h2, h3⟩
        rcases hbad with h | h | h
        · exact absurd h h1
        · exact absurd h h2
        · exact absurd h h3
    · exact ⟨fun _ => hall, fun _ => hok⟩

/-- C9: in `run_developer`, `num_units_to_build = 0` does not build zero
units: Python's truthiness-based `or` makes `0` (and `None`) fall back to
the internally computed target; only a nonzero value overrides it. -/
theorem targetUnits_zero_falls_back (computed : Int) :
    targetUnits (some 0) computed = computed ∧
    targetUnits none computed = computed ∧
    (∀ n : Int, n ≠ 0 → targetUnits (some n) computed = n) := by
  refine ⟨by simp [targetUnits], rfl, fun n hn => by simp [targetUnits, hn]⟩

theorem targetUnits_zero_falls_back_witness :
    targetUnits (some 0) 7 = 7 ∧ (5 : Int) ≠ 0 ∧ targetUnits (some 5) 7 = 5 :=
  ⟨(targetUnits_zero_falls_back 7).1, by decide,
   (targetUnits_zero_falls_back 7).2.2 5 (by decide)⟩
